import Mathlib

/-!
Shallow embedding of the telemetry engine of a web-based GPS speedometer.

JavaScript numbers are modelled exactly: a finite number is a rational,
with explicit constructors for the two infinities and NaN (float rounding
is not modelled).  JavaScript `null` is modelled by `Option`.  Each
closure-based store (`createSpeedStatsStore`, `createAccelerationStore`,
`createDistanceStore`, `createQuarterMileTracker`, `createZeroSixtyTracker`)
becomes a state structure plus pure `update`/`reset`/`get` functions over
it; `persistState`/`loadState` side effects are identity on the modelled
state and are dropped.
-/

/-- Model of a JavaScript number: a finite (exact) rational, one of the two
infinities, or NaN. -/
inductive JSNum where
  | fin (q : ℚ)
  | posInf
  | negInf
  | nan
  deriving DecidableEq

namespace JSNum

/-- JavaScript `Number.isFinite` on a number. -/
def isFinite : JSNum → Bool
  | fin _ => true
  | _ => false

/-- JavaScript subtraction `a - b` on numbers (IEEE special values, exact
rationals for the finite case). -/
def sub : JSNum → JSNum → JSNum
  | nan, _ => nan
  | _, nan => nan
  | fin a, fin b => fin (a - b)
  | fin _, posInf => negInf
  | fin _, negInf => posInf
  | posInf, fin _ => posInf
  | negInf, fin _ => negInf
  | posInf, negInf => posInf
  | negInf, posInf => negInf
  | posInf, posInf => nan
  | negInf, negInf => nan

/-- JavaScript division `a / b` on numbers (signed zero is not modelled:
a zero is treated as `+0`). -/
def div : JSNum → JSNum → JSNum
  | nan, _ => nan
  | _, nan => nan
  | fin a, fin b =>
      if b = 0 then (if a = 0 then nan else if 0 < a then posInf else negInf)
      else fin (a / b)
  | fin _, posInf => fin 0
  | fin _, negInf => fin 0
  | posInf, fin b => if 0 ≤ b then posInf else negInf
  | negInf, fin b => if 0 ≤ b then negInf else posInf
  | posInf, posInf => nan
  | posInf, negInf => nan
  | negInf, posInf => nan
  | negInf, negInf => nan

/-- JavaScript comparison `a <= b` (any comparison with NaN is false). -/
def le : JSNum → JSNum → Bool
  | nan, _ => false
  | _, nan => false
  | negInf, _ => true
  | _, negInf => false
  | _, posInf => true
  | posInf, _ => false
  | fin a, fin b => decide (a ≤ b)

/-- JavaScript comparison `a < b` (any comparison with NaN is false). -/
def lt : JSNum → JSNum → Bool
  | nan, _ => false
  | _, nan => false
  | negInf, negInf => false
  | negInf, _ => true
  | _, negInf => false
  | posInf, _ => false
  | _, posInf => true
  | fin a, fin b => decide (a < b)

/-- JavaScript comparison `a >= b`. -/
def ge (a b : JSNum) : Bool := le b a

/-- JavaScript comparison `a > b`. -/
def gt (a b : JSNum) : Bool := lt b a

/-- JavaScript truthiness of a number: `0` and `NaN` are falsy, everything
else (including the infinities) is truthy. -/
def truthy : JSNum → Bool
  | fin q => decide (q ≠ 0)
  | nan => false
  | _ => true

/-- The rational value of a finite number (0 on the non-finite shapes; only
ever used under a finiteness guard). -/
def toQ : JSNum → ℚ
  | fin q => q
  | _ => 0

end JSNum

/-- JavaScript `Number.isFinite` applied to a number-or-null value
(`Number.isFinite(null)` is false). -/
def isFiniteOpt : Option JSNum → Bool
  | some n => n.isFinite
  | none => false

/-- The rational value of a finite number-or-null value (0 on every other
shape; only ever used under a finiteness guard). -/
def finValOpt : Option JSNum → ℚ
  | some (.fin q) => q
  | _ => 0

/-- Constant `QUARTER_MILE_M = 402.336` (line 4 of the source). -/
def QUARTER_MILE_M : ℚ := 402336 / 1000

/-- Constant `ZERO_TO_SIXTY_TARGET_MS = 26.8224` (line 5 of the source). -/
def ZERO_TO_SIXTY_TARGET_MS : ℚ := 268224 / 10000

namespace DistanceStore

/-- State of `createDistanceStore`: `{ total }`.  Starting from the default
`{ total: 0 }`, only finite rationals are ever stored, so the total is a
rational. -/
def defaults : ℚ := 0

/-- Source `createDistanceStore().update(delta)`: adds `delta` to the total
exactly when `Number.isFinite(delta) && delta > 0`, otherwise leaves the
total unchanged; returns the (new) total. -/
def update (total : ℚ) (delta : JSNum) : ℚ :=
  match delta with
  | .fin q => if 0 < q then total + q else total
  | _ => total

/-- Source `createDistanceStore().reset()`: the total becomes 0. -/
def reset : ℚ := 0

end DistanceStore

/-- State of `createSpeedStatsStore`: `{ count, total, min, max }`.  From the
default state only finite speeds are accumulated, so all numeric fields are
rationals and `min`/`max` are rational-or-null. -/
structure SpeedStatsState where
  count : ℕ
  total : ℚ
  min : Option ℚ
  max : Option ℚ
  deriving DecidableEq

/-- View returned by `createSpeedStatsStore().get()`. -/
structure SpeedStatsView where
  min : Option ℚ
  max : Option ℚ
  average : Option ℚ
  deriving DecidableEq

namespace SpeedStatsStore

/-- Default speed-stats state `{ count: 0, total: 0, min: null, max: null }`. -/
def defaults : SpeedStatsState := ⟨0, 0, none, none⟩

/-- Source `createSpeedStatsStore().update(speed)`: a no-op unless the speed
is a finite number; otherwise increments the count, accumulates the total and
folds the speed into min/max (the first finite speed seeds both). -/
def update (s : SpeedStatsState) (speed : Option JSNum) : SpeedStatsState :=
  match speed with
  | some (.fin q) =>
      { count := s.count + 1
        total := s.total + q
        min := some (match s.min with | none => q | some m => Min.min m q)
        max := some (match s.max with | none => q | some m => Max.max m q) }
  | _ => s

/-- Source `createSpeedStatsStore().reset()`. -/
def reset : SpeedStatsState := defaults

/-- Source `createSpeedStatsStore().get()`: the average is `total / count`
when the count is nonzero (truthy) and null otherwise. -/
def get (s : SpeedStatsState) : SpeedStatsView :=
  { min := s.min
    max := s.max
    average := if s.count = 0 then none else some (s.total / s.count) }

end SpeedStatsStore

/-- Invariant of the speed-stats state: the count is zero exactly when `min`
is null, exactly when `max` is null, and whenever both are present
`min ≤ max`. -/
def SpeedStatsInv (s : SpeedStatsState) : Prop :=
  (s.count = 0 ↔ s.min = none) ∧ (s.count = 0 ↔ s.max = none) ∧
    (∀ a b : ℚ, s.min = some a → s.max = some b → a ≤ b)

/-- State of `createAccelerationStore`: the persisted
`{ lastSpeed, lastTime, peakAccel, peakDecel }` plus the module-level
transient `current`.  All stored numbers are finite, so they are rationals;
`null` is `none`. -/
structure AccelState where
  lastSpeed : Option ℚ
  lastTime : Option ℚ
  peakAccel : Option ℚ
  peakDecel : Option ℚ
  current : Option ℚ
  deriving DecidableEq

/-- View returned by `createAccelerationStore().get()`. -/
structure AccelView where
  current : Option ℚ
  currentDecel : Option ℚ
  peakAccel : Option ℚ
  peakDecel : Option ℚ
  deriving DecidableEq

namespace AccelerationStore

/-- Default acceleration state (all fields null). -/
def defaults : AccelState := ⟨none, none, none, none, none⟩

/-- Source `createAccelerationStore().update(speed, timestamp)`, line for
line: when the speed and timestamp are finite and a previous baseline
exists, `dt = timestamp - lastTime`; only when `dt > 0` is `current`
recomputed as `(speed - lastSpeed) / dt` and folded into the peaks (in the
exact-rational model the computed `current` is always finite, so the
source's `Number.isFinite(current)` guard is always true); when the outer
condition fails `current` is set to null, but when only `dt > 0` fails the
source leaves `current` untouched.  A finite (speed, timestamp) pair always
becomes the new baseline. -/
def update (s : AccelState) (speed : Option JSNum) (timestamp : JSNum) :
    AccelState :=
  let s1 :=
    if isFiniteOpt speed && timestamp.isFinite &&
        s.lastSpeed.isSome && s.lastTime.isSome then
      let dt := timestamp.toQ - s.lastTime.getD 0
      if 0 < dt then
        let c := (finValOpt speed - s.lastSpeed.getD 0) / dt
        let withCur := { s with current := some c }
        let withAcc :=
          if 0 < c then
            { withCur with
                peakAccel :=
                  some (match s.peakAccel with
                        | none => c
                        | some p => Max.max p c) }
          else withCur
        if c < 0 then
          { withAcc with
              peakDecel :=
                some (match s.peakDecel with
                      | none => |c|
                      | some p => Max.max p |c|) }
        else withAcc
      else s
    else { s with current := none }
  if isFiniteOpt speed && timestamp.isFinite then
    { s1 with lastSpeed := some (finValOpt speed), lastTime := some timestamp.toQ }
  else s1

/-- Source `createAccelerationStore().reset()`. -/
def reset : AccelState := defaults

/-- Source `createAccelerationStore().get()`: `current` is reported
verbatim (it is finite whenever non-null in the model), and the decel view
is `|current|` when `current < 0`, `0` when `current === 0` (a zero
`current` is falsy, so the first ternary falls through), and null
otherwise. -/
def get (s : AccelState) : AccelView :=
  { current := s.current
    currentDecel :=
      match s.current with
      | some c => if c < 0 then some |c| else if c = 0 then some 0 else none
      | none => none
    peakAccel := s.peakAccel
    peakDecel := s.peakDecel }

end AccelerationStore

/-- Status string of the quarter-mile tracker, as a closed enum; the
cosmetic remaining-distance annotation of the `Running (x m left)` string is
kept as a number instead of formatted text. -/
inductive QMStatus where
  | standby
  | running
  | runningRemaining (remaining : JSNum)
  | completed
  deriving DecidableEq

/-- State of `createQuarterMileTracker`: persisted `{ bestTime, lastTime }`
(finite when non-null) plus the transient `runStart` (the totalDistance and
timestamp captured verbatim at arming) and the status. -/
structure QMState where
  bestTime : Option ℚ
  lastTime : Option ℚ
  runStart : Option (JSNum × JSNum)
  status : QMStatus
  deriving DecidableEq

/-- Source `shouldArmRun(speed)`: the speed is a finite number and
`speed >= 1.0`. -/
def shouldArmRun : Option JSNum → Bool
  | some (.fin q) => decide (1 ≤ q)
  | _ => false

/-- The abandon guard on line 579 of the source:
`speed !== null && Number.isFinite(speed) && speed < 0.5`. -/
def speedBelowHalf : Option JSNum → Bool
  | some (.fin q) => decide (q < 1/2)
  | _ => false

namespace QuarterMileTracker

/-- Default quarter-mile tracker state. -/
def defaults : QMState := ⟨none, none, none, .standby⟩

/-- Source `createQuarterMileTracker().update(totalDistance, speed,
timestamp)`, line for line: arm when `shouldArmRun(speed) && !runStart`;
with no armed run fall back to Standby; once
`covered = totalDistance - runStart.distance` reaches `QUARTER_MILE_M`,
record `elapsed = timestamp - runStart.time` as the last time (and as the
best time when the best is null or `elapsed` is strictly smaller) when
elapsed is finite and positive, discarding the run to Standby otherwise;
below the threshold, a finite speed below `0.5` abandons the run, and any
other speed keeps it running with the remaining-distance annotation. -/
def update (s : QMState) (totalDistance : JSNum) (speed : Option JSNum)
    (timestamp : JSNum) : QMState :=
  if shouldArmRun speed && s.runStart.isNone then
    { s with runStart := some (totalDistance, timestamp), status := .running }
  else
    match s.runStart with
    | none => { s with status := .standby }
    | some rs =>
        let covered := JSNum.sub totalDistance rs.1
        if JSNum.ge covered (.fin QUARTER_MILE_M) then
          match JSNum.sub timestamp rs.2 with
          | .fin e =>
              if 0 < e then
                { bestTime :=
                    match s.bestTime with
                    | none => some e
                    | some b => if e < b then some e else some b
                  lastTime := some e
                  runStart := none
                  status := .completed }
              else { s with runStart := none, status := .standby }
          | _ => { s with runStart := none, status := .standby }
        else if speedBelowHalf speed then
          { s with runStart := none, status := .standby }
        else
          let remaining := JSNum.sub (.fin QUARTER_MILE_M) covered
          { s with
              status :=
                if JSNum.gt remaining (.fin 0) then
                  .runningRemaining remaining
                else .running }

/-- Source `createQuarterMileTracker().reset()`. -/
def reset : QMState := defaults

end QuarterMileTracker

/-- Phase of the zero-to-sixty tracker. -/
inductive ZSPhase where
  | idle
  | armed
  | running
  | cooldown
  deriving DecidableEq

/-- State of `createZeroSixtyTracker`: persisted `{ bestTime, lastTime }`
plus the transient phase and `startTime` (finite when non-null, since it is
only ever set from a finite timestamp). -/
structure ZSState where
  bestTime : Option ℚ
  lastTime : Option ℚ
  phase : ZSPhase
  startTime : Option ℚ
  deriving DecidableEq

namespace ZeroSixtyTracker

/-- Default zero-to-sixty tracker state. -/
def defaults : ZSState := ⟨none, none, .idle, none⟩

/-- Source `createZeroSixtyTracker().update(speed, timestamp)`, line for
line: a no-op unless both the speed and the timestamp are finite; then the
four-phase switch.  In the running phase `elapsed = timestamp - startTime`,
where a null `startTime` coerces to `0` as in JavaScript. -/
def update (s : ZSState) (speed : Option JSNum) (timestamp : JSNum) :
    ZSState :=
  if !(isFiniteOpt speed) || !timestamp.isFinite then s
  else
    let q := finValOpt speed
    let t := timestamp.toQ
    match s.phase with
      | .idle => if q ≤ 1/2 then { s with phase := .armed } else s
      | .armed =>
          if 1/2 < q then { s with phase := .running, startTime := some t }
          else s
      | .running =>
          if ZERO_TO_SIXTY_TARGET_MS ≤ q then
            let elapsed := t - s.startTime.getD 0
            if 0 < elapsed then
              { bestTime :=
                  match s.bestTime with
                  | none => some elapsed
                  | some b => if elapsed < b then some elapsed else some b
                lastTime := some elapsed
                phase := .cooldown
                startTime := s.startTime }
            else { s with phase := .idle }
          else if q ≤ 1/2 then { s with phase := .armed }
          else s
      | .cooldown => if q ≤ 1/2 then { s with phase := .armed } else s

/-- Source `createZeroSixtyTracker().reset()`. -/
def reset : ZSState := defaults

end ZeroSixtyTracker

/-- Source `resolveSpeed(rawSpeed, distanceDelta, snapshot)`: the module
variable `lastPosition` enters as the time of the previous fix (`none` when
there is no previous fix; only its `time` field is read).  A finite raw
speed is returned verbatim; otherwise, with a previous fix,
`dt = snapshot.time - lastPosition.time` is screened by `!dt || dt <= 0`
(so a zero or NaN `dt` is falsy and rejected, a negative or negative-infinite
`dt` is rejected by the comparison, but `dt = +Infinity` passes) and, when
`distanceDelta` is finite, `distanceDelta / dt` is returned. -/
def resolveSpeed (rawSpeed : Option JSNum) (distanceDelta : JSNum)
    (snapshotTime : JSNum) (lastPositionTime : Option JSNum) :
    Option JSNum :=
  if isFiniteOpt rawSpeed then rawSpeed
  else
    match lastPositionTime with
    | none => none
    | some pt =>
        let dt := JSNum.sub snapshotTime pt
        if !dt.truthy || dt.le (.fin 0) then none
        else if !distanceDelta.isFinite then none
        else some (JSNum.div distanceDelta dt)

/-- Constant `EARTH_RADIUS_M = 6371000` (line 3 of the source). -/
def EARTH_RADIUS_M : ℝ := 6371000

/-- A location snapshot `{ lat, lon, time }` as built by `handlePosition`,
idealised over the reals for the trigonometric distance computation. -/
structure GeoPoint where
  lat : ℝ
  lon : ℝ
  time : ℝ

/-- Source `toRadians(value) = value * Math.PI / 180`. -/
noncomputable def toRadians (value : ℝ) : ℝ := value * Real.pi / 180

open Classical in
/-- JavaScript `Math.atan2(y, x)` over the reals (signed zero is not
modelled). -/
noncomputable def atan2 (y x : ℝ) : ℝ :=
  if 0 < x then Real.arctan (y / x)
  else if x < 0 ∧ 0 ≤ y then Real.arctan (y / x) + Real.pi
  else if x < 0 then Real.arctan (y / x) - Real.pi
  else if x = 0 ∧ 0 < y then Real.pi / 2
  else if x = 0 ∧ y < 0 then -(Real.pi / 2)
  else 0

/-- Source `computeTravelDelta(current)`: `0` with no `lastPosition`,
otherwise the haversine great-circle distance between `lastPosition` and
the current snapshot with Earth radius `EARTH_RADIUS_M`. -/
noncomputable def computeTravelDelta (lastPosition : Option GeoPoint)
    (current : GeoPoint) : ℝ :=
  match lastPosition with
  | none => 0
  | some lp =>
      let dLat := toRadians (current.lat - lp.lat)
      let dLon := toRadians (current.lon - lp.lon)
      let lat1 := toRadians lp.lat
      let lat2 := toRadians current.lat
      let a := Real.sin (dLat / 2) ^ 2 +
        Real.cos lat1 * Real.cos lat2 * Real.sin (dLon / 2) ^ 2
      let c := 2 * atan2 (Real.sqrt a) (Real.sqrt (1 - a))
      EARTH_RADIUS_M * c

open Classical in
/-- The distance-store update in the idealised real model used for the
haversine pipeline: every real is finite, so the source's
`Number.isFinite(delta) && delta > 0` guard reduces to `0 < delta`. -/
noncomputable def distanceUpdateReal (total delta : ℝ) : ℝ :=
  if 0 < delta then total + delta else total

/-- The distance part of `handlePosition`, folded over a list of fixes from
a fresh session: each fix contributes `computeTravelDelta` of the previous
fix and is then stored as the new `lastPosition`; the result is the final
accumulated total. -/
noncomputable def runDistancePipeline (fixes : List GeoPoint) : ℝ :=
  (fixes.foldl
    (fun st p => (some p, distanceUpdateReal st.2 (computeTravelDelta st.1 p)))
    ((none : Option GeoPoint), (0 : ℝ))).2

/-- Order on optional peaks: a null peak is below everything, and present
peaks compare as rationals. -/
def optLe (a b : Option ℚ) : Prop :=
  ∀ x : ℚ, a = some x → ∃ y : ℚ, b = some y ∧ x ≤ y

/-! Theorems. -/

/-- A single distance-store update never decreases the total. -/
theorem DistanceStore.le_update (total : ℚ) (delta : JSNum) :
    total ≤ DistanceStore.update total delta := by
  cases delta with
  | fin q =>
      by_cases h : 0 < q
      · simp only [DistanceStore.update, if_pos h]; linarith
      · simp only [DistanceStore.update, if_neg h]; exact le_refl total
  | posInf => exact le_refl total
  | negInf => exact le_refl total
  | nan => exact le_refl total

/-- Folding any sequence of deltas through the distance store never
decreases the total. -/
theorem DistanceStore.le_foldl (total : ℚ) (deltas : List JSNum) :
    total ≤ deltas.foldl DistanceStore.update total := by
  induction deltas generalizing total with
  | nil => exact le_refl total
  | cons d ds ih =>
      exact le_trans (DistanceStore.le_update total d)
        (by simpa [List.foldl] using ih (DistanceStore.update total d))

/-- With no previous fix the travel delta is zero. -/
theorem computeTravelDelta_none (p : GeoPoint) :
    computeTravelDelta none p = 0 := rfl

/-- The haversine travel delta between a fix and itself is zero. -/
theorem computeTravelDelta_self (p : GeoPoint) :
    computeTravelDelta (some p) p = 0 := by
  have hz : atan2 0 1 = 0 := by
    unfold atan2
    rw [if_pos (by norm_num : (0:ℝ) < 1)]
    simp [Real.arctan_zero]
  simp [computeTravelDelta, toRadians, hz]

/-- A fresh session fed the same fix twice accumulates zero distance. -/
theorem runDistancePipeline_pair (p : GeoPoint) :
    runDistancePipeline [p, p] = 0 := by
  simp [runDistancePipeline, List.foldl, computeTravelDelta_none,
    computeTravelDelta_self, distanceUpdateReal]

/-- C1: the cumulative distance total is monotone non-decreasing across
every sequence of distance-store updates; `update(delta)` leaves the total
unchanged unless `delta` is finite and strictly positive, in which case it
adds it; and processing a two-identical-point fix sequence from a fresh
session leaves the total equal to 0. -/
theorem distance_total_monotone :
    (∀ (total : ℚ) (deltas : List JSNum),
        total ≤ deltas.foldl DistanceStore.update total) ∧
    (∀ (total : ℚ) (delta : JSNum),
        (∀ q : ℚ, delta = .fin q → q ≤ 0) →
          DistanceStore.update total delta = total) ∧
    (∀ (total q : ℚ), 0 < q →
        DistanceStore.update total (.fin q) = total + q) ∧
    (∀ p : GeoPoint, runDistancePipeline [p, p] = 0) := by
  refine ⟨DistanceStore.le_foldl, ?_, ?_, runDistancePipeline_pair⟩
  · intro total delta h
    cases delta with
    | fin q =>
        have hq : q ≤ 0 := h q rfl
        simp only [DistanceStore.update, if_neg (not_lt.mpr hq)]
    | posInf => rfl
    | negInf => rfl
    | nan => rfl
  · intro total q hq
    simp only [DistanceStore.update, if_pos hq]

/-- Witness for C1 at concrete inputs: a NaN delta leaves the total at 3,
and a finite positive delta of 2 raises it to 5. -/
theorem distance_total_monotone_witness :
    DistanceStore.update 3 JSNum.nan = 3 ∧
    DistanceStore.update 3 (JSNum.fin 2) = 3 + 2 := by
  constructor
  · exact distance_total_monotone.2.1 3 .nan (by intro q h; cases h)
  · exact distance_total_monotone.2.2.1 3 2 (by norm_num)

/-- C7: a speed-stats update is a no-op on a non-finite speed; a finite
speed increments the count, accumulates the total and folds into min/max
(the first finite speed seeds both); the reported average is
`total / count` when the count is positive and null otherwise; and the
speeds 10, 20, 30 from the default state give average 20, min 10,
max 30. -/
theorem speedStats_update_correct :
    (∀ (s : SpeedStatsState) (speed : Option JSNum),
        (∀ q : ℚ, speed ≠ some (.fin q)) → SpeedStatsStore.update s speed = s) ∧
    (∀ (s : SpeedStatsState) (q : ℚ),
        (SpeedStatsStore.update s (some (.fin q))).count = s.count + 1 ∧
        (SpeedStatsStore.update s (some (.fin q))).total = s.total + q ∧
        (s.min = none → (SpeedStatsStore.update s (some (.fin q))).min = some q) ∧
        (∀ m : ℚ, s.min = some m →
            (SpeedStatsStore.update s (some (.fin q))).min = some (Min.min m q)) ∧
        (s.max = none → (SpeedStatsStore.update s (some (.fin q))).max = some q) ∧
        (∀ m : ℚ, s.max = some m →
            (SpeedStatsStore.update s (some (.fin q))).max = some (Max.max m q))) ∧
    (∀ s : SpeedStatsState, s.count = 0 → (SpeedStatsStore.get s).average = none) ∧
    (∀ s : SpeedStatsState, 0 < s.count →
        (SpeedStatsStore.get s).average = some (s.total / s.count)) ∧
    SpeedStatsStore.get
        ([some (JSNum.fin 10), some (.fin 20), some (.fin 30)].foldl
          SpeedStatsStore.update SpeedStatsStore.defaults) =
      ⟨some 10, some 30, some 20⟩ := by
  refine ⟨?_, ?_, ?_, ?_, ?_⟩
  · intro s speed h
    cases speed with
    | none => rfl
    | some n =>
        cases n with
        | fin q => exact absurd rfl (h q)
        | posInf => rfl
        | negInf => rfl
        | nan => rfl
  · intro s q
    refine ⟨rfl, rfl, ?_, ?_, ?_, ?_⟩
    · intro h; simp [SpeedStatsStore.update, h]
    · intro m h; simp [SpeedStatsStore.update, h]
    · intro h; simp [SpeedStatsStore.update, h]
    · intro m h; simp [SpeedStatsStore.update, h]
  · intro s h; simp [SpeedStatsStore.get, h]
  · intro s h
    have hne : s.count ≠ 0 := Nat.pos_iff_ne_zero.mp h
    simp [SpeedStatsStore.get, hne]
  · simp only [List.foldl]
    norm_num [SpeedStatsStore.update, SpeedStatsStore.get, SpeedStatsStore.defaults]

/-- Witness for C7 at concrete inputs: a null speed is a no-op on the
default state, the default state reports a null average, and a state with
count 2 and total 30 reports average 15. -/
theorem speedStats_update_correct_witness :
    SpeedStatsStore.update SpeedStatsStore.defaults none = SpeedStatsStore.defaults ∧
    (SpeedStatsStore.get SpeedStatsStore.defaults).average = none ∧
    (SpeedStatsStore.get ⟨2, 30, some 10, some 20⟩).average = some 15 := by
  refine ⟨?_, ?_, ?_⟩
  · exact speedStats_update_correct.1 SpeedStatsStore.defaults none
      (by intro q h; cases h)
  · exact speedStats_update_correct.2.2.1 SpeedStatsStore.defaults rfl
  · have h := speedStats_update_correct.2.2.2.1 ⟨2, 30, some 10, some 20⟩
      (by norm_num)
    norm_num at h
    exact h

/-- C10: the speed-stats state invariant (count is zero exactly when min is
null, exactly when max is null, and min ≤ max whenever the count is
positive) holds of the default state, of the reset state, and is preserved
by every update. -/
theorem speedStats_invariant :
    SpeedStatsInv SpeedStatsStore.defaults ∧
    SpeedStatsInv SpeedStatsStore.reset ∧
    (∀ (s : SpeedStatsState) (speed : Option JSNum),
        SpeedStatsInv s → SpeedStatsInv (SpeedStatsStore.update s speed)) := by
  have hdef : SpeedStatsInv SpeedStatsStore.defaults := by
    refine ⟨by simp [SpeedStatsStore.defaults], by simp [SpeedStatsStore.defaults], ?_⟩
    intro a b ha
    simp [SpeedStatsStore.defaults] at ha
  refine ⟨hdef, hdef, ?_⟩
  intro s speed hinv
  obtain ⟨h1, h2, h3⟩ := hinv
  cases speed with
  | none => exact ⟨h1, h2, h3⟩
  | some n =>
      cases n with
      | posInf => exact ⟨h1, h2, h3⟩
      | negInf => exact ⟨h1, h2, h3⟩
      | nan => exact ⟨h1, h2, h3⟩
      | fin q =>
          cases hmin : s.min with
          | none =>
              have hmax : s.max = none := h2.mp (h1.mpr hmin)
              refine ⟨by simp [SpeedStatsStore.update],
                by simp [SpeedStatsStore.update], ?_⟩
              intro a b ha hb
              simp [SpeedStatsStore.update, hmin, hmax] at ha hb
              simp [← ha, ← hb]
          | some m =>
              have hc : s.count ≠ 0 := fun h0 => by
                rw [h1.mp h0] at hmin; cases hmin
              cases hmax : s.max with
              | none => exact absurd (h2.mpr hmax) hc
              | some M =>
                  have hmM : m ≤ M := h3 m M hmin hmax
                  refine ⟨by simp [SpeedStatsStore.update],
                    by simp [SpeedStatsStore.update], ?_⟩
                  intro a b ha hb
                  simp [SpeedStatsStore.update, hmin, hmax] at ha hb
                  calc a = Min.min m q := ha.symm
                    _ ≤ m := min_le_left m q
                    _ ≤ M := hmM
                    _ ≤ Max.max M q := le_max_left M q
                    _ = b := hb

/-- Witness for C10 at a concrete input: the invariant survives updating a
one-sample state with the speed 25. -/
theorem speedStats_invariant_witness :
    SpeedStatsInv (SpeedStatsStore.update ⟨1, 10, some 10, some 10⟩
      (some (.fin 25))) := by
  refine speedStats_invariant.2.2 ⟨1, 10, some 10, some 10⟩ (some (.fin 25))
    ⟨by simp, by simp, ?_⟩
  intro a b ha hb
  simp_all

/-- The option order is reflexive. -/
theorem optLe_refl (a : Option ℚ) : optLe a a :=
  fun x hx => ⟨x, hx, le_refl x⟩

/-- The option order is transitive. -/
theorem optLe_trans {a b c : Option ℚ} (h1 : optLe a b) (h2 : optLe b c) :
    optLe a c := by
  intro x hx
  obtain ⟨y, hy, hxy⟩ := h1 x hx
  obtain ⟨z, hz, hyz⟩ := h2 y hy
  exact ⟨z, hz, le_trans hxy hyz⟩

/-- An acceleration update either leaves `peakAccel` unchanged or folds a
strictly positive freshly computed `current` into it with `max`. -/
theorem accel_update_peakAccel (s : AccelState) (speed : Option JSNum)
    (ts : JSNum) :
    (AccelerationStore.update s speed ts).peakAccel = s.peakAccel ∨
    ∃ c : ℚ, 0 < c ∧ (AccelerationStore.update s speed ts).current = some c ∧
      (AccelerationStore.update s speed ts).peakAccel =
        some (match s.peakAccel with | none => c | some p => Max.max p c) := by
  unfold AccelerationStore.update
  by_cases hg : (isFiniteOpt speed && ts.isFinite &&
      s.lastSpeed.isSome && s.lastTime.isSome) = true
  · simp only [Bool.and_eq_true] at hg
    obtain ⟨⟨⟨h1, h2⟩, h3⟩, h4⟩ := hg
    by_cases hdt : 0 < ts.toQ - s.lastTime.getD 0
    · by_cases hc : 0 < (finValOpt speed - s.lastSpeed.getD 0) /
          (ts.toQ - s.lastTime.getD 0)
      · right
        refine ⟨_, hc, ?_, ?_⟩ <;>
          simp [h1, h2, h3, h4, hdt, hc, not_lt.mpr (le_of_lt hc)]
      · left
        by_cases hneg : (finValOpt speed - s.lastSpeed.getD 0) /
            (ts.toQ - s.lastTime.getD 0) < 0
        · simp [h1, h2, h3, h4, hdt, hc, hneg]
        · simp [h1, h2, h3, h4, hdt, hc, hneg]
    · left
      simp [h1, h2, h3, h4, hdt]
  · left
    by_cases hb : (isFiniteOpt speed && ts.isFinite) = true
    · rw [if_neg hg, if_pos hb]
    · rw [if_neg hg, if_neg hb]

/-- An acceleration update either leaves `peakDecel` unchanged or folds the
magnitude of a strictly negative freshly computed `current` into it with
`max`. -/
theorem accel_update_peakDecel (s : AccelState) (speed : Option JSNum)
    (ts : JSNum) :
    (AccelerationStore.update s speed ts).peakDecel = s.peakDecel ∨
    ∃ c : ℚ, c < 0 ∧ (AccelerationStore.update s speed ts).current = some c ∧
      (AccelerationStore.update s speed ts).peakDecel =
        some (match s.peakDecel with | none => |c| | some p => Max.max p |c|) := by
  unfold AccelerationStore.update
  by_cases hg : (isFiniteOpt speed && ts.isFinite &&
      s.lastSpeed.isSome && s.lastTime.isSome) = true
  · simp only [Bool.and_eq_true] at hg
    obtain ⟨⟨⟨h1, h2⟩, h3⟩, h4⟩ := hg
    by_cases hdt : 0 < ts.toQ - s.lastTime.getD 0
    · by_cases hneg : (finValOpt speed - s.lastSpeed.getD 0) /
          (ts.toQ - s.lastTime.getD 0) < 0
      · right
        refine ⟨_, hneg, ?_, ?_⟩ <;>
          simp [h1, h2, h3, h4, hdt, hneg, not_lt.mpr (le_of_lt hneg)]
      · left
        by_cases hc : 0 < (finValOpt speed - s.lastSpeed.getD 0) /
            (ts.toQ - s.lastTime.getD 0)
        · simp [h1, h2, h3, h4, hdt, hc, hneg]
        · simp [h1, h2, h3, h4, hdt, hc, hneg]
    · left
      simp [h1, h2, h3, h4, hdt]
  · left
    by_cases hb : (isFiniteOpt speed && ts.isFinite) = true
    · rw [if_neg hg, if_pos hb]
    · rw [if_neg hg, if_neg hb]

/-- A single acceleration update never decreases either peak. -/
theorem accel_update_optLe (s : AccelState) (speed : Option JSNum)
    (ts : JSNum) :
    optLe s.peakAccel (AccelerationStore.update s speed ts).peakAccel ∧
    optLe s.peakDecel (AccelerationStore.update s speed ts).peakDecel := by
  constructor
  · rcases accel_update_peakAccel s speed ts with h | ⟨c, _, _, h⟩
    · rw [h]; exact optLe_refl _
    · intro x hx
      exact ⟨Max.max x c, by rw [h, hx], le_max_left x c⟩
  · rcases accel_update_peakDecel s speed ts with h | ⟨c, _, _, h⟩
    · rw [h]; exact optLe_refl _
    · intro x hx
      exact ⟨Max.max x |c|, by rw [h, hx], le_max_left x |c|⟩

/-- Folding any input sequence through the acceleration store never
decreases either peak. -/
theorem accel_foldl_optLe (s : AccelState)
    (inputs : List (Option JSNum × JSNum)) :
    optLe s.peakAccel
      ((inputs.foldl (fun t p => AccelerationStore.update t p.1 p.2) s).peakAccel) ∧
    optLe s.peakDecel
      ((inputs.foldl (fun t p => AccelerationStore.update t p.1 p.2) s).peakDecel) := by
  induction inputs generalizing s with
  | nil => exact ⟨optLe_refl _, optLe_refl _⟩
  | cons i is ih =>
      simp only [List.foldl]
      exact ⟨optLe_trans (accel_update_optLe s i.1 i.2).1
          (ih (AccelerationStore.update s i.1 i.2)).1,
        optLe_trans (accel_update_optLe s i.1 i.2).2
          (ih (AccelerationStore.update s i.1 i.2)).2⟩

/-- C6: `peakAccel` and `peakDecel` are high-water marks: a single update
and any sequence of updates leave each peak non-decreasing (a null peak may
become a value, a present peak never shrinks); when a peak changes it is
replaced by a strictly larger value, namely a strictly positive freshly
computed current acceleration for `peakAccel` and the magnitude of a
strictly negative one for `peakDecel`; and `reset()` returns both peaks to
null. -/
theorem acceleration_peaks_high_water :
    (∀ (s : AccelState) (speed : Option JSNum) (ts : JSNum),
        optLe s.peakAccel (AccelerationStore.update s speed ts).peakAccel ∧
        optLe s.peakDecel (AccelerationStore.update s speed ts).peakDecel) ∧
    (∀ (s : AccelState) (inputs : List (Option JSNum × JSNum)),
        optLe s.peakAccel
          ((inputs.foldl (fun t p => AccelerationStore.update t p.1 p.2) s).peakAccel) ∧
        optLe s.peakDecel
          ((inputs.foldl (fun t p => AccelerationStore.update t p.1 p.2) s).peakDecel)) ∧
    (∀ (s : AccelState) (speed : Option JSNum) (ts : JSNum),
        (AccelerationStore.update s speed ts).peakAccel ≠ s.peakAccel →
          ∃ c : ℚ, 0 < c ∧ (AccelerationStore.update s speed ts).current = some c ∧
            (AccelerationStore.update s speed ts).peakAccel = some c ∧
            ∀ b : ℚ, s.peakAccel = some b → b < c) ∧
    (∀ (s : AccelState) (speed : Option JSNum) (ts : JSNum),
        (AccelerationStore.update s speed ts).peakDecel ≠ s.peakDecel →
          ∃ c : ℚ, c < 0 ∧ (AccelerationStore.update s speed ts).current = some c ∧
            (AccelerationStore.update s speed ts).peakDecel = some |c| ∧
            ∀ b : ℚ, s.peakDecel = some b → b < |c|) ∧
    AccelerationStore.reset.peakAccel = none ∧
    AccelerationStore.reset.peakDecel = none := by
  refine ⟨accel_update_optLe, accel_foldl_optLe, ?_, ?_, rfl, rfl⟩
  · intro s speed ts hne
    rcases accel_update_peakAccel s speed ts with h | ⟨c, hc, hcur, h⟩
    · exact absurd h hne
    · cases hpa : s.peakAccel with
      | none =>
          refine ⟨c, hc, hcur, ?_, ?_⟩
          · rw [h, hpa]
          · intro b hb; cases hb
      | some p =>
          have hmax : Max.max p c ≠ p := by
            intro he
            apply hne
            rw [h, hpa]
            show some (Max.max p c) = some p
            rw [he]
          have hpc : p < c := by
            rcases lt_or_le p c with hlt | hle
            · exact hlt
            · exact absurd (max_eq_left hle) hmax
          refine ⟨c, hc, hcur, ?_, ?_⟩
          · rw [h, hpa]
            show some (Max.max p c) = some c
            rw [max_eq_right (le_of_lt hpc)]
          · intro b hb
            injection hb with hb
            rw [← hb]
            exact hpc
  · intro s speed ts hne
    rcases accel_update_peakDecel s speed ts with h | ⟨c, hc, hcur, h⟩
    · exact absurd h hne
    · cases hpa : s.peakDecel with
      | none =>
          refine ⟨c, hc, hcur, ?_, ?_⟩
          · rw [h, hpa]
          · intro b hb; cases hb
      | some p =>
          have hmax : Max.max p |c| ≠ p := by
            intro he
            apply hne
            rw [h, hpa]
            show some (Max.max p |c|) = some p
            rw [he]
          have hpc : p < |c| := by
            rcases lt_or_le p |c| with hlt | hle
            · exact hlt
            · exact absurd (max_eq_left hle) hmax
          refine ⟨c, hc, hcur, ?_, ?_⟩
          · rw [h, hpa]
            show some (Max.max p |c|) = some |c|
            rw [max_eq_right (le_of_lt hpc)]
          · intro b hb
            injection hb with hb
            rw [← hb]
            exact hpc

/-- Witness for C6 at a concrete input: after a baseline fix of speed 0 at
time 0, the fix of speed 10 at time 2 raises `peakAccel` from null, and the
claim's conclusion instantiates to a strictly positive current of 5. -/
theorem acceleration_peaks_high_water_witness :
    ∃ c : ℚ, 0 < c ∧
      (AccelerationStore.update
        (AccelerationStore.update AccelerationStore.defaults
          (some (.fin 0)) (.fin 0)) (some (.fin 10)) (.fin 2)).current = some c ∧
      (AccelerationStore.update
        (AccelerationStore.update AccelerationStore.defaults
          (some (.fin 0)) (.fin 0)) (some (.fin 10)) (.fin 2)).peakAccel = some c ∧
      ∀ b : ℚ,
        (AccelerationStore.update AccelerationStore.defaults
          (some (.fin 0)) (.fin 0)).peakAccel = some b → b < c := by
  refine acceleration_peaks_high_water.2.2.1
    (AccelerationStore.update AccelerationStore.defaults (some (.fin 0)) (.fin 0))
    (some (.fin 10)) (.fin 2) ?_
  have h : (AccelerationStore.update
      (AccelerationStore.update AccelerationStore.defaults
        (some (.fin 0)) (.fin 0)) (some (.fin 10)) (.fin 2)).peakAccel = some 5 := by
    norm_num [AccelerationStore.update, AccelerationStore.defaults, isFiniteOpt,
      JSNum.isFinite, finValOpt, JSNum.toQ, Option.getD]
  have h0 : (AccelerationStore.update AccelerationStore.defaults
      (some (.fin 0)) (.fin 0)).peakAccel = none := by
    norm_num [AccelerationStore.update, AccelerationStore.defaults, isFiniteOpt,
      JSNum.isFinite, finValOpt, JSNum.toQ, Option.getD]
  rw [h, h0]
  exact fun hh => Option.noConfusion hh

/-- C5 (code bug): the source nulls the transient `current` only in the
`else` of the outer finiteness/baseline guard; when the guard holds but
`dt <= 0` (a repeated timestamp), `current` silently keeps its previous
value.  After fixes (speed 0, t 0) and (speed 10, t 2) the computed current
is 5; a third fix (speed 10, t 2) with `dt = 0` then leaves both the stored
and the reported current at 5 instead of null. -/
theorem acceleration_stale_current_bug :
    (AccelerationStore.update
      (AccelerationStore.update
        (AccelerationStore.update AccelerationStore.defaults
          (some (.fin 0)) (.fin 0))
        (some (.fin 10)) (.fin 2))
      (some (.fin 10)) (.fin 2)).current = some 5 ∧
    (AccelerationStore.get
      (AccelerationStore.update
        (AccelerationStore.update
          (AccelerationStore.update AccelerationStore.defaults
            (some (.fin 0)) (.fin 0))
          (some (.fin 10)) (.fin 2))
        (some (.fin 10)) (.fin 2))).current = some 5 := by
  norm_num [AccelerationStore.update, AccelerationStore.get,
    AccelerationStore.defaults, isFiniteOpt, JSNum.isFinite, finValOpt,
    JSNum.toQ, Option.getD]

/-- C8 counterexample: two fixes of equal speed 5 at times 0 and 1 make the
computed current exactly 0, and the accel-side view then reports 0, not
null — the claimed suppression of the accel view at exactly 0 does not
happen. -/
theorem accel_view_zero_counterexample :
    (AccelerationStore.get
      (AccelerationStore.update
        (AccelerationStore.update AccelerationStore.defaults
          (some (.fin 5)) (.fin 0))
        (some (.fin 5)) (.fin 1))).current = some 0 ∧
    (AccelerationStore.get
      (AccelerationStore.update
        (AccelerationStore.update AccelerationStore.defaults
          (some (.fin 5)) (.fin 0))
        (some (.fin 5)) (.fin 1))).current ≠ none := by
  have h : (AccelerationStore.get
      (AccelerationStore.update
        (AccelerationStore.update AccelerationStore.defaults
          (some (.fin 5)) (.fin 0))
        (some (.fin 5)) (.fin 1))).current = some 0 := by
    norm_num [AccelerationStore.update, AccelerationStore.get,
      AccelerationStore.defaults, isFiniteOpt, JSNum.isFinite, finValOpt,
      JSNum.toQ, Option.getD]
  exact ⟨h, by rw [h]; exact fun hh => Option.noConfusion hh⟩

/-- C8 amended: the decel view is `|current|` when `current < 0`, `0` when
`current` is exactly 0, and null otherwise (including a null current); the
accel-side view reports `current` verbatim — in particular it shows 0, not
null, at exactly 0. -/
theorem accel_view_cases :
    ∀ s : AccelState,
      (AccelerationStore.get s).current = s.current ∧
      (∀ c : ℚ, s.current = some c → c < 0 →
          (AccelerationStore.get s).currentDecel = some |c|) ∧
      (s.current = some 0 → (AccelerationStore.get s).currentDecel = some 0) ∧
      (∀ c : ℚ, s.current = some c → 0 < c →
          (AccelerationStore.get s).currentDecel = none) ∧
      (s.current = none → (AccelerationStore.get s).currentDecel = none) := by
  intro s
  refine ⟨rfl, ?_, ?_, ?_, ?_⟩
  · intro c hc hneg
    simp [AccelerationStore.get, hc, hneg]
  · intro hc
    simp [AccelerationStore.get, hc]
  · intro c hc hpos
    simp [AccelerationStore.get, hc, not_lt.mpr (le_of_lt hpos),
      ne_of_gt hpos]
  · intro hc
    simp [AccelerationStore.get, hc]

/-- Witness for C8 at concrete inputs: a current of -3 is shown as decel 3,
a current of 0 as decel 0, and a current of 2 as a null decel. -/
theorem accel_view_cases_witness :
    (AccelerationStore.get ⟨none, none, none, none, some (-3)⟩).currentDecel =
      some 3 ∧
    (AccelerationStore.get ⟨none, none, none, none, some 0⟩).currentDecel =
      some 0 ∧
    (AccelerationStore.get ⟨none, none, none, none, some 2⟩).currentDecel =
      none := by
  refine ⟨?_, ?_, ?_⟩
  · have h := (accel_view_cases ⟨none, none, none, none, some (-3)⟩).2.1 (-3)
      rfl (by norm_num)
    norm_num at h
    exact h
  · exact (accel_view_cases ⟨none, none, none, none, some 0⟩).2.2.1 rfl
  · exact (accel_view_cases ⟨none, none, none, none, some 2⟩).2.2.2.1 2 rfl
      (by norm_num)

/-- A non-finite (or null) speed never satisfies the arming guard. -/
theorem shouldArmRun_eq_false_of_nonfinite (speed : Option JSNum)
    (h : isFiniteOpt speed = false) : shouldArmRun speed = false := by
  cases speed with
  | none => rfl
  | some n =>
      cases n with
      | fin q => simp [isFiniteOpt, JSNum.isFinite] at h
      | posInf => rfl
      | negInf => rfl
      | nan => rfl

/-- A non-finite (or null) speed never satisfies the abandon guard. -/
theorem speedBelowHalf_eq_false_of_nonfinite (speed : Option JSNum)
    (h : isFiniteOpt speed = false) : speedBelowHalf speed = false := by
  cases speed with
  | none => rfl
  | some n =>
      cases n with
      | fin q => simp [isFiniteOpt, JSNum.isFinite] at h
      | posInf => rfl
      | negInf => rfl
      | nan => rfl

/-- A strict JavaScript comparison refutes the opposite non-strict one. -/
theorem JSNum.ge_eq_false_of_lt (a b : JSNum) (h : JSNum.lt a b = true) :
    JSNum.ge a b = false := by
  cases a <;> cases b <;> simp_all [JSNum.lt, JSNum.ge, JSNum.le]

/-- With an armed run and the quarter-mile threshold reached, a finite
positive elapsed time completes the run with the book-keeping of the
source. -/
theorem qm_update_complete (s : QMState) (rs : JSNum × JSNum) (td : JSNum)
    (speed : Option JSNum) (ts : JSNum) (e : ℚ)
    (hrs : s.runStart = some rs)
    (hge : JSNum.ge (JSNum.sub td rs.1) (.fin QUARTER_MILE_M) = true)
    (he : JSNum.sub ts rs.2 = .fin e) (hpos : 0 < e) :
    QuarterMileTracker.update s td speed ts =
      { bestTime :=
          match s.bestTime with
          | none => some e
          | some b => if e < b then some e else some b
        lastTime := some e
        runStart := none
        status := .completed } := by
  have harm : (shouldArmRun speed && s.runStart.isNone) = false := by
    rw [hrs]; simp
  simp [QuarterMileTracker.update, harm, hrs, hge, he, hpos]

/-- With an armed run and the quarter-mile threshold reached, an invalid
elapsed time (not a strictly positive finite number) discards the run to
Standby without touching the recorded times. -/
theorem qm_update_invalid (s : QMState) (rs : JSNum × JSNum) (td : JSNum)
    (speed : Option JSNum) (ts : JSNum)
    (hrs : s.runStart = some rs)
    (hge : JSNum.ge (JSNum.sub td rs.1) (.fin QUARTER_MILE_M) = true)
    (hne : ∀ e : ℚ, JSNum.sub ts rs.2 = .fin e → e ≤ 0) :
    QuarterMileTracker.update s td speed ts =
      { s with runStart := none, status := .standby } := by
  have harm : (shouldArmRun speed && s.runStart.isNone) = false := by
    rw [hrs]; simp
  cases hsub : JSNum.sub ts rs.2 with
  | fin e =>
      have hle : ¬ 0 < e := not_lt.mpr (hne e hsub)
      simp [QuarterMileTracker.update, harm, hrs, hge, hsub, hle]
  | posInf => simp [QuarterMileTracker.update, harm, hrs, hge, hsub]
  | negInf => simp [QuarterMileTracker.update, harm, hrs, hge, hsub]
  | nan => simp [QuarterMileTracker.update, harm, hrs, hge, hsub]

/-- C3: with an armed run, once the covered distance reaches the
quarter-mile threshold, a finite strictly positive elapsed time is recorded
as the last time, replaces the best time exactly when the best is null or
the elapsed time is strictly smaller (a tie keeps the existing best, so the
best never increases), and the run clears to unarmed with status Completed;
an invalid elapsed time discards the run to Standby with both recorded
times unchanged. -/
theorem quarterMile_completion :
    ∀ (s : QMState) (rs : JSNum × JSNum) (td : JSNum) (speed : Option JSNum)
      (ts : JSNum),
      s.runStart = some rs →
      JSNum.ge (JSNum.sub td rs.1) (.fin QUARTER_MILE_M) = true →
      (∀ e : ℚ, JSNum.sub ts rs.2 = .fin e → 0 < e →
          (QuarterMileTracker.update s td speed ts).lastTime = some e ∧
          (QuarterMileTracker.update s td speed ts).status = .completed ∧
          (QuarterMileTracker.update s td speed ts).runStart = none ∧
          (s.bestTime = none →
              (QuarterMileTracker.update s td speed ts).bestTime = some e) ∧
          (∀ b : ℚ, s.bestTime = some b → e < b →
              (QuarterMileTracker.update s td speed ts).bestTime = some e) ∧
          (∀ b : ℚ, s.bestTime = some b → b ≤ e →
              (QuarterMileTracker.update s td speed ts).bestTime = some b)) ∧
      ((∀ e : ℚ, JSNum.sub ts rs.2 = .fin e → e ≤ 0) →
          (QuarterMileTracker.update s td speed ts).lastTime = s.lastTime ∧
          (QuarterMileTracker.update s td speed ts).bestTime = s.bestTime ∧
          (QuarterMileTracker.update s td speed ts).status = .standby ∧
          (QuarterMileTracker.update s td speed ts).runStart = none) ∧
      (∀ b : ℚ, s.bestTime = some b →
          ∃ b' : ℚ, (QuarterMileTracker.update s td speed ts).bestTime = some b' ∧
            b' ≤ b) := by
  intro s rs td speed ts hrs hge
  refine ⟨?_, ?_, ?_⟩
  · intro e he hpos
    have hupd := qm_update_complete s rs td speed ts e hrs hge he hpos
    refine ⟨by rw [hupd], by rw [hupd], by rw [hupd], ?_, ?_, ?_⟩
    · intro hb; rw [hupd]; simp [hb]
    · intro b hb hlt; rw [hupd]; simp [hb, hlt]
    · intro b hb hle; rw [hupd]; simp [hb, not_lt.mpr hle]
  · intro hne
    have hupd := qm_update_invalid s rs td speed ts hrs hge hne
    exact ⟨by rw [hupd], by rw [hupd], by rw [hupd], by rw [hupd]⟩
  · intro b hb
    by_cases hex : ∃ e : ℚ, JSNum.sub ts rs.2 = .fin e ∧ 0 < e
    · obtain ⟨e, he, hpos⟩ := hex
      have hupd := qm_update_complete s rs td speed ts e hrs hge he hpos
      by_cases hlt : e < b
      · exact ⟨e, by rw [hupd]; simp [hb, hlt], le_of_lt hlt⟩
      · exact ⟨b, by rw [hupd]; simp [hb, hlt], le_refl b⟩
    · have hne : ∀ e : ℚ, JSNum.sub ts rs.2 = .fin e → e ≤ 0 := by
        intro e he
        by_contra hpos
        exact hex ⟨e, he, lt_of_not_le hpos⟩
      have hupd := qm_update_invalid s rs td speed ts hrs hge hne
      exact ⟨b, by rw [hupd]; exact hb, le_refl b⟩

/-- Witness for C3 at concrete inputs: arming at distance 0 and time 0, a
fix at distance 403 and time 20 completes with last and best time 20; from
the resulting record a second, slower run (elapsed 25) records last time 25
but keeps best time 20. -/
theorem quarterMile_completion_witness :
    (QuarterMileTracker.update
      ⟨none, none, some (.fin 0, .fin 0), .running⟩
      (.fin 403) (some (.fin 5)) (.fin 20)).lastTime = some 20 ∧
    (QuarterMileTracker.update
      ⟨none, none, some (.fin 0, .fin 0), .running⟩
      (.fin 403) (some (.fin 5)) (.fin 20)).status = .completed ∧
    (QuarterMileTracker.update
      ⟨none, none, some (.fin 0, .fin 0), .running⟩
      (.fin 403) (some (.fin 5)) (.fin 20)).bestTime = some 20 ∧
    (QuarterMileTracker.update
      ⟨some 20, some 20, some (.fin 403, .fin 100), .running⟩
      (.fin 806) (some (.fin 5)) (.fin 125)).lastTime = some 25 ∧
    (QuarterMileTracker.update
      ⟨some 20, some 20, some (.fin 403, .fin 100), .running⟩
      (.fin 806) (some (.fin 5)) (.fin 125)).bestTime = some 20 := by
  have h1 := quarterMile_completion
    ⟨none, none, some (.fin 0, .fin 0), .running⟩ (.fin 0, .fin 0)
    (.fin 403) (some (.fin 5)) (.fin 20) rfl
    (by norm_num [JSNum.ge, JSNum.le, JSNum.sub, QUARTER_MILE_M])
  have h1c := h1.1 20 (by norm_num [JSNum.sub]) (by norm_num)
  have h2 := quarterMile_completion
    ⟨some 20, some 20, some (.fin 403, .fin 100), .running⟩ (.fin 403, .fin 100)
    (.fin 806) (some (.fin 5)) (.fin 125) rfl
    (by norm_num [JSNum.ge, JSNum.le, JSNum.sub, QUARTER_MILE_M])
  have h2c := h2.1 25 (by norm_num [JSNum.sub]) (by norm_num)
  exact ⟨h1c.1, h1c.2.1, h1c.2.2.2.1 rfl, h2c.1,
    h2c.2.2.2.2.2 20 rfl (by norm_num)⟩

/-- C9: while a run is armed and the covered distance is still strictly
below the quarter-mile threshold, an update whose speed is null or
non-finite never abandons the run: `runStart` is kept and the status stays
a Running annotation. -/
theorem quarterMile_dropout_tolerance :
    ∀ (s : QMState) (rs : JSNum × JSNum) (td : JSNum) (speed : Option JSNum)
      (ts : JSNum),
      s.runStart = some rs →
      isFiniteOpt speed = false →
      JSNum.lt (JSNum.sub td rs.1) (.fin QUARTER_MILE_M) = true →
      (QuarterMileTracker.update s td speed ts).runStart = some rs ∧
      ((QuarterMileTracker.update s td speed ts).status = .running ∨
        ∃ r : JSNum,
          (QuarterMileTracker.update s td speed ts).status =
            .runningRemaining r) := by
  intro s rs td speed ts hrs hnf hlt
  have harm : (shouldArmRun speed && s.runStart.isNone) = false := by
    rw [shouldArmRun_eq_false_of_nonfinite speed hnf]; simp
  have hge : JSNum.ge (JSNum.sub td rs.1) (.fin QUARTER_MILE_M) = false :=
    JSNum.ge_eq_false_of_lt _ _ hlt
  have hbel : speedBelowHalf speed = false :=
    speedBelowHalf_eq_false_of_nonfinite speed hnf
  by_cases hrem : JSNum.gt
      (JSNum.sub (.fin QUARTER_MILE_M) (JSNum.sub td rs.1)) (.fin 0) = true
  · have hupd : QuarterMileTracker.update s td speed ts =
        { s with
            status := .runningRemaining
              (JSNum.sub (.fin QUARTER_MILE_M) (JSNum.sub td rs.1)) } := by
      simp [QuarterMileTracker.update, harm, hrs, hge, hbel, hrem]
    exact ⟨by rw [hupd]; exact hrs, Or.inr ⟨_, by rw [hupd]⟩⟩
  · have hupd : QuarterMileTracker.update s td speed ts =
        { s with status := .running } := by
      simp [QuarterMileTracker.update, harm, hrs, hge, hbel, hrem]
    exact ⟨by rw [hupd]; exact hrs, Or.inl (by rw [hupd])⟩

/-- Witness for C9 at a concrete input: an armed run at distance 0, fed a
null speed and NaN timestamp at covered distance 100, keeps its `runStart`
and stays running. -/
theorem quarterMile_dropout_tolerance_witness :
    (QuarterMileTracker.update
      ⟨none, none, some (.fin 0, .fin 0), .running⟩
      (.fin 100) none .nan).runStart = some (.fin 0, .fin 0) ∧
    ((QuarterMileTracker.update
      ⟨none, none, some (.fin 0, .fin 0), .running⟩
      (.fin 100) none .nan).status = .running ∨
      ∃ r : JSNum,
        (QuarterMileTracker.update
          ⟨none, none, some (.fin 0, .fin 0), .running⟩
          (.fin 100) none .nan).status = .runningRemaining r) :=
  quarterMile_dropout_tolerance
    ⟨none, none, some (.fin 0, .fin 0), .running⟩ (.fin 0, .fin 0)
    (.fin 100) none .nan rfl rfl
    (by norm_num [JSNum.lt, JSNum.sub, QUARTER_MILE_M])

/-- C2 counterexample: with no finite raw speed, a previous fix at time 0
and a current time of +Infinity, `dt = +Infinity` is non-finite, yet
`resolveSpeed` does not return null: the `!dt || dt <= 0` screen lets the
positive infinity through and `deltaMeters / dt` evaluates to 0. -/
theorem resolveSpeed_infinite_dt_counterexample :
    resolveSpeed none (.fin 5) .posInf (some (.fin 0)) = some (.fin 0) ∧
    resolveSpeed none (.fin 5) .posInf (some (.fin 0)) ≠ none := by
  refine ⟨rfl, ?_⟩
  intro h
  exact Option.noConfusion h

/-- C2 amended: a finite raw speed is returned verbatim; otherwise with no
previous fix the result is null; otherwise, for `dt = current.time −
previous.time`: a zero, NaN or negative (including negative-infinite) `dt`
yields null; a finite positive `dt` yields null on a non-finite
`deltaMeters` and `deltaMeters / dt` on a finite one; and a
positive-infinite `dt` passes the screen, yielding null on a non-finite
`deltaMeters` and `deltaMeters / dt = 0` on a finite one. -/
theorem resolveSpeed_cases :
    ∀ (rawSpeed : Option JSNum) (delta ct : JSNum) (pt : Option JSNum),
      (isFiniteOpt rawSpeed = true →
          resolveSpeed rawSpeed delta ct pt = rawSpeed) ∧
      (isFiniteOpt rawSpeed = false →
        (pt = none → resolveSpeed rawSpeed delta ct pt = none) ∧
        (∀ p : JSNum, pt = some p →
          (JSNum.sub ct p = .fin 0 → resolveSpeed rawSpeed delta ct pt = none) ∧
          (JSNum.sub ct p = .nan → resolveSpeed rawSpeed delta ct pt = none) ∧
          (JSNum.sub ct p = .negInf →
              resolveSpeed rawSpeed delta ct pt = none) ∧
          (∀ d : ℚ, JSNum.sub ct p = .fin d → d < 0 →
              resolveSpeed rawSpeed delta ct pt = none) ∧
          (∀ d : ℚ, JSNum.sub ct p = .fin d → 0 < d →
            (delta.isFinite = false →
                resolveSpeed rawSpeed delta ct pt = none) ∧
            (∀ q : ℚ, delta = .fin q →
                resolveSpeed rawSpeed delta ct pt = some (.fin (q / d)))) ∧
          (JSNum.sub ct p = .posInf →
            (delta.isFinite = false →
                resolveSpeed rawSpeed delta ct pt = none) ∧
            (∀ q : ℚ, delta = .fin q →
                resolveSpeed rawSpeed delta ct pt = some (.fin 0))))) := by
  intro rawSpeed delta ct pt
  constructor
  · intro h
    simp [resolveSpeed, h]
  · intro h
    constructor
    · intro hp
      simp [resolveSpeed, h, hp]
    · intro p hp
      refine ⟨?_, ?_, ?_, ?_, ?_, ?_⟩
      · intro hsub
        simp [resolveSpeed, h, hp, hsub, JSNum.truthy]
      · intro hsub
        simp [resolveSpeed, h, hp, hsub, JSNum.truthy]
      · intro hsub
        simp [resolveSpeed, h, hp, hsub, JSNum.truthy, JSNum.le]
      · intro d hsub hd
        have hne : d ≠ 0 := ne_of_lt hd
        have hle : d ≤ 0 := le_of_lt hd
        simp [resolveSpeed, h, hp, hsub, JSNum.truthy, JSNum.le, hne, hle]
      · intro d hsub hd
        have hne : d ≠ 0 := ne_of_gt hd
        have hnle : ¬ d ≤ 0 := not_le.mpr hd
        constructor
        · intro hnf
          simp [resolveSpeed, h, hp, hsub, JSNum.truthy, JSNum.le, hne, hnle,
            hnf]
        · intro q hq
          simp [resolveSpeed, h, hp, hsub, hq, JSNum.truthy, JSNum.le,
            JSNum.div, JSNum.isFinite, hne, hnle]
      · intro hsub
        constructor
        · intro hnf
          simp [resolveSpeed, h, hp, hsub, JSNum.truthy, JSNum.le, hnf]
        · intro q hq
          simp [resolveSpeed, h, hp, hsub, hq, JSNum.truthy, JSNum.le,
            JSNum.div, JSNum.isFinite]

/-- Witness for C2 at concrete inputs: a finite raw speed of 7 is returned
verbatim; with no raw speed, a previous fix at time 1 and the current fix at
time 3 with a 6 m delta resolves to 3 m/s; and an identical timestamp
(dt = 0) resolves to null. -/
theorem resolveSpeed_cases_witness :
    resolveSpeed (some (.fin 7)) .nan .nan none = some (.fin 7) ∧
    resolveSpeed none (.fin 6) (.fin 3) (some (.fin 1)) = some (.fin 3) ∧
    resolveSpeed none (.fin 6) (.fin 1) (some (.fin 1)) = none := by
  refine ⟨?_, ?_, ?_⟩
  · exact (resolveSpeed_cases (some (.fin 7)) .nan .nan none).1 rfl
  · have h := (((resolveSpeed_cases none (.fin 6) (.fin 3)
        (some (.fin 1))).2 rfl).2 (.fin 1) rfl).2.2.2.2.1 2
        (by norm_num [JSNum.sub]) (by norm_num)
    have h2 := h.2 6 rfl
    norm_num at h2
    exact h2
  · exact (((resolveSpeed_cases none (.fin 6) (.fin 1)
        (some (.fin 1))).2 rfl).2 (.fin 1) rfl).1
      (by norm_num [JSNum.sub])

/-- C4 counterexample: the claimed run over speeds 0, 0, 10, 30, 27 at
timestamps 0..4 does not record a last time of 2 seconds: the fourth sample
(30 m/s at t = 3) already reaches the 26.8224 m/s target, so the run
completes with elapsed 3 − 2 = 1. -/
theorem zeroSixty_spec_example_counterexample :
    ¬(([((0:ℚ), (0:ℚ)), (0, 1), (10, 2), (30, 3), (27, 4)].foldl
        (fun s p => ZeroSixtyTracker.update s (some (.fin p.1)) (.fin p.2))
        ZeroSixtyTracker.defaults).lastTime = some 2) := by
  have h : ([((0:ℚ), (0:ℚ)), (0, 1), (10, 2), (30, 3), (27, 4)].foldl
      (fun s p => ZeroSixtyTracker.update s (some (.fin p.1)) (.fin p.2))
      ZeroSixtyTracker.defaults).lastTime = some 1 := by
    norm_num [List.foldl, ZeroSixtyTracker.update, ZeroSixtyTracker.defaults,
      isFiniteOpt, JSNum.isFinite, finValOpt, JSNum.toQ,
      ZERO_TO_SIXTY_TARGET_MS, Option.getD]
  rw [h]
  intro hh
  injection hh with hh
  exact absurd hh (by norm_num)

/-- C4 amended: the speed sequence 0, 0, 10, 30, 27 at timestamps 0..4 from
the default state drives the phase through armed, armed, running, cooldown,
cooldown (the 30 m/s sample already crosses the 26.8224 m/s target) and
records last time 3 − 2 = 1 (also the best time). -/
theorem zeroSixty_spec_example_actual :
    (([((0:ℚ), (0:ℚ))].foldl
        (fun s p => ZeroSixtyTracker.update s (some (.fin p.1)) (.fin p.2))
        ZeroSixtyTracker.defaults).phase = .armed) ∧
    (([((0:ℚ), (0:ℚ)), (0, 1)].foldl
        (fun s p => ZeroSixtyTracker.update s (some (.fin p.1)) (.fin p.2))
        ZeroSixtyTracker.defaults).phase = .armed) ∧
    (([((0:ℚ), (0:ℚ)), (0, 1), (10, 2)].foldl
        (fun s p => ZeroSixtyTracker.update s (some (.fin p.1)) (.fin p.2))
        ZeroSixtyTracker.defaults).phase = .running) ∧
    (([((0:ℚ), (0:ℚ)), (0, 1), (10, 2), (30, 3)].foldl
        (fun s p => ZeroSixtyTracker.update s (some (.fin p.1)) (.fin p.2))
        ZeroSixtyTracker.defaults).phase = .cooldown) ∧
    (([((0:ℚ), (0:ℚ)), (0, 1), (10, 2), (30, 3), (27, 4)].foldl
        (fun s p => ZeroSixtyTracker.update s (some (.fin p.1)) (.fin p.2))
        ZeroSixtyTracker.defaults).phase = .cooldown) ∧
    (([((0:ℚ), (0:ℚ)), (0, 1), (10, 2), (30, 3), (27, 4)].foldl
        (fun s p => ZeroSixtyTracker.update s (some (.fin p.1)) (.fin p.2))
        ZeroSixtyTracker.defaults).lastTime = some 1) ∧
    (([((0:ℚ), (0:ℚ)), (0, 1), (10, 2), (30, 3), (27, 4)].foldl
        (fun s p => ZeroSixtyTracker.update s (some (.fin p.1)) (.fin p.2))
        ZeroSixtyTracker.defaults).bestTime = some 1) := by
  refine ⟨?_, ?_, ?_, ?_, ?_, ?_, ?_⟩ <;>
    norm_num [List.foldl, ZeroSixtyTracker.update, ZeroSixtyTracker.defaults,
      isFiniteOpt, JSNum.isFinite, finValOpt, JSNum.toQ,
      ZERO_TO_SIXTY_TARGET_MS, Option.getD]
